import Mathlib

/-!
Verification of the AuraDoc session/transcript-capture state machine.

This file gives a shallow embedding of the session state machine of
`src/App.tsx` and of the service helpers of `src/services/geminiService.ts`
(`withRetry`, base64 `encode`/`decode`), and proves properties about them.

Modelling conventions:
* React state hooks and mutable refs become fields of an explicit `AppState`
  record that each operation transforms.
* External services (Gemini calls, microphone acquisition, channel close)
  become oracles collected in an `Env` record; a fallible call is an
  `Except Unit _` value.
* Awaited asynchronous steps are modelled as sequential state passing.
  The one call that the source does NOT await — `handleTranslationPhase`
  inside `stopLiveSession` — is split into its synchronous prefix (executed
  inside the stop) and a `PendingTranslation` task whose resolution
  (`handleTranslationPhaseFinish`) runs later, exactly as the JS event loop
  would schedule it.
* Each operation also returns a list of `Event`s recording, in program
  order, its externally visible actions (delays, resource acquisition and
  release, service invocations, log appends), so that temporal claims about
  ordering can be stated.
* JS strings are Lean `String`s; machine-level byte values are `Nat`s with
  explicit bounds (`< 256`, `< 64`) where it matters.
-/

deriving instance DecidableEq for Except

namespace AuraDoc

/-! ## Data model (from `src/types.ts` and `src/App.tsx`) -/

inductive Role
  | Doctor
  | Patient
  | Scribe
deriving DecidableEq

inductive AppStep
  | SPLASH
  | WELCOME
  | PATIENT_ENTRY
  | CAPTURE
  | SUMMARY
  | PRESCRIPTION
  | FINALIZE
  | ARCHIVE
deriving DecidableEq

inductive ConsultationMode
  | UNILINGUAL
  | BILINGUAL
deriving DecidableEq

inductive ProcessingStatus
  | IDLE
  | PROCESSING
  | COMPLETED
  | ERROR
deriving DecidableEq

inductive VerificationStatus
  | Pending
  | Verified
  | Warning
deriving DecidableEq

structure PatientDemographics where
  name : String
  age : String
  gender : String
deriving DecidableEq

structure SOAPSummary where
  subjective : String
  objective : String
  assessment : String
  plan : String
deriving DecidableEq

/-- A prescription together with the ephemeral UI verification fields of the
`VerifiedPrescription` interface of `App.tsx` (optional TS fields become
`Option`s). -/
structure VerifiedPrescription where
  medicineName : String
  dosage : String
  morning : Bool
  afternoon : Bool
  evening : Bool
  night : Bool
  relationToFood : String
  duration : String
  verificationStatus : Option VerificationStatus := none
  verificationError : Option String := none
deriving DecidableEq

structure ICD10Code where
  code : String
  description : String
deriving DecidableEq

structure ConsultationDraft where
  id : String
  date : String
  normalizedTranscript : String
  demographics : PatientDemographics
  soap : SOAPSummary
  prescriptions : List VerifiedPrescription
  suggestedICD10 : List ICD10Code
  doctorApprovalRequired : String
deriving DecidableEq

structure ScribeBlock where
  original : String
  refined : Option String := none
deriving DecidableEq

structure Message where
  role : Role
  original : String
  translated : Option String
  timestamp : Nat
deriving DecidableEq

/-- Result of `translateAndSpeak`: translated text plus (possibly empty)
base64 audio payload. -/
structure TranslateResult where
  translatedText : String
  audioData : String
deriving DecidableEq

/-- Result of `verifyMedication`. -/
structure VerifyResult where
  isValid : Bool
  errorMsg : Option String
deriving DecidableEq

/-! ## JS string helpers used by the embedding -/

/-- JS whitespace test for the characters relevant to `String.prototype.trim`. -/
def isJsSpace (c : Char) : Bool :=
  c = ' ' || c = '\t' || c = '\n' || c = '\r'

/-- Trim a character list at both ends. -/
def trimList (l : List Char) : List Char :=
  ((l.dropWhile isJsSpace).reverse.dropWhile isJsSpace).reverse

/-- Model of `String.prototype.trim`. -/
def jsTrim (s : String) : String :=
  ⟨trimList s.data⟩

/-- Model of the fragment-append expression of `toggleMic`:
`buf + (buf ? ' ' : '') + text`. -/
def jsAppend (buf text : String) : String :=
  buf ++ (if buf = "" then "" else " ") ++ text

/-- Model of `String.prototype.toLowerCase` (ASCII letters). -/
def jsToLower (s : String) : String :=
  ⟨s.data.map Char.toLower⟩

/-- Model of `String.prototype.includes`: substring containment. -/
def jsIncludes (hay needle : String) : Bool :=
  hay.data.tails.any fun t => needle.data.isPrefixOf t

/-- Model of the JS template interpolation of an optional value:
an absent value prints as the string below. -/
def jsTemplate : Option String → String
  | some t => t
  | none => "undefined"

/-- Update the element at index `i` of a list, leaving the rest unchanged
(model of an in-place element mutation of a JS array). -/
def listUpdate {α : Type} : List α → Nat → (α → α) → List α
  | [], _, _ => []
  | a :: as_, 0, f => f a :: as_
  | a :: as_, n + 1, f => a :: listUpdate as_ n f

/-! ## Service layer: `withRetry` (from `geminiService.ts`) -/

/-- A JS error value as classified by `withRetry`: an optional HTTP status
and a message string. -/
structure JsError where
  status : Option Nat
  message : String
deriving DecidableEq

/-- The quota classification of `withRetry`:
`status === 429 || message.toLowerCase().includes("quota") ||
message.toLowerCase().includes("limit exceeded")`. -/
def isQuotaError (e : JsError) : Bool :=
  e.status = some 429 || jsIncludes (jsToLower e.message) "quota"
    || jsIncludes (jsToLower e.message) "limit exceeded"

/-- The `QuotaError` thrown after retries are exhausted. -/
def systemBusyError : JsError :=
  { status := none, message := "System Busy. Processing in queue..." }

/-- Model of `withRetry`. The underlying computation is an oracle
`fn : Nat → Except JsError A` giving the outcome of each successive
attempt; the second component of the result is the total `setTimeout`
delay accumulated between attempts. Defaults in the source are
`retries = 2`, `delay = 200`. -/
def withRetry {A : Type} (fn : Nat → Except JsError A)
    (retries delay attempt : Nat) : Except JsError A × Nat :=
  match fn attempt with
  | Except.ok a => (Except.ok a, 0)
  | Except.error e =>
    if isQuotaError e then
      match retries with
      | 0 => (Except.error systemBusyError, 0)
      | r + 1 =>
        let res := withRetry fn r (delay * 2) (attempt + 1)
        (res.1, delay + res.2)
    else (Except.error e, 0)

/-! ## Service layer: base64 `encode` / `decode` (from `geminiService.ts`)

The source `encode` builds a binary string whose character codes are the
bytes and applies `btoa`; `decode` applies `atob` and reads the character
codes back. Since `String.fromCharCode`/`charCodeAt` is the identity on
byte values, we embed the pair at the byte level: `encode` maps a byte
list to the base64 character list `btoa` would produce, and `decode`
parses it back (`none` models `atob` throwing on malformed input). -/

/-- The base64 alphabet used by `btoa`. -/
def b64Alphabet : List Char :=
  "ABCDEFGHIJKLMNOPQRSTUVWXYZabcdefghijklmnopqrstuvwxyz0123456789+/".data

/-- The base64 character of a sextet. -/
def b64Char (n : Nat) : Char :=
  b64Alphabet.getD n '?'

/-- First index of a character in a list. -/
def charIdx (c : Char) : List Char → Option Nat
  | [] => none
  | d :: ds => if d = c then some 0 else (charIdx c ds).map (· + 1)

/-- The sextet of a base64 character, `none` for characters outside the
alphabet. -/
def b64Index (c : Char) : Option Nat :=
  charIdx c b64Alphabet

/-- Model of `btoa` on byte values: three bytes become four sextet
characters; a final group of one or two bytes is padded with `=`. -/
def encode : List Nat → List Char
  | [] => []
  | [a] => [b64Char (a / 4), b64Char (a % 4 * 16), '=', '=']
  | [a, b] => [b64Char (a / 4), b64Char (a % 4 * 16 + b / 16), b64Char (b % 16 * 4), '=']
  | a :: b :: c :: rest =>
    b64Char (a / 4) :: b64Char (a % 4 * 16 + b / 16) :: b64Char (b % 16 * 4 + c / 64)
      :: b64Char (c % 64) :: encode rest

/-- Model of `atob` on byte values: groups of four base64 characters are
decoded to three bytes; `=` padding may close the final group. `none`
models the `InvalidCharacterError` that `atob` throws on malformed
input. -/
def decode : List Char → Option (List Nat)
  | [] => some []
  | c0 :: c1 :: c2 :: c3 :: rest =>
    if c2 = '=' then
      if c3 = '=' ∧ rest = [] then
        match b64Index c0, b64Index c1 with
        | some s0, some s1 => some [s0 * 4 + s1 / 16]
        | _, _ => none
      else none
    else if c3 = '=' then
      if rest = [] then
        match b64Index c0, b64Index c1, b64Index c2 with
        | some s0, some s1, some s2 => some [s0 * 4 + s1 / 16, s1 % 16 * 16 + s2 / 4]
        | _, _, _ => none
      else none
    else
      match b64Index c0, b64Index c1, b64Index c2, b64Index c3, decode rest with
      | some s0, some s1, some s2, some s3, some bs =>
        some ((s0 * 4 + s1 / 16) :: (s1 % 16 * 16 + s2 / 4) :: (s2 % 4 * 64 + s3) :: bs)
      | _, _, _, _, _ => none
  | _ => none

/-! ## The session state machine (from `App.tsx`) -/

/-- The mutable React state and refs of the `App` component that the
session state machine reads and writes. `streamOpen` / `sessionOpen`
record whether `streamRef` / `sessionRef` currently hold a live
resource. -/
structure AppState where
  step : AppStep
  mode : ConsultationMode
  docLang : String
  patLang : String
  patientDetails : PatientDemographics
  scribeBlocks : List ScribeBlock
  messages : List Message
  currentInput : String
  draft : Option ConsultationDraft
  status : ProcessingStatus
  error : Option String
  isLive : Option Role
  isTranslating : Bool
  isFinalizing : Bool
  currentRole : Option Role
  captureBuffer : String
  streamOpen : Bool
  sessionOpen : Bool
deriving DecidableEq

/-- Externally visible actions, recorded in program order. -/
inductive Event
  | delayMs (n : Nat)
  | streamReleased
  | sessionClosed
  | streamAcquired (r : Role)
  | channelOpened (r : Role)
  | appendScribe (original : String)
  | refineCalled (text lang : String)
  | translateStarted (text fromLang toLang : String)
  | appendDialogue (r : Role) (original translated : String)
  | playAudio
  | reasoningCalled (transcript : String)
  | verifyCalled (name dosage : String)
deriving DecidableEq

/-- Whether an event acquires a capture resource. -/
def Event.isAcquire : Event → Bool
  | Event.streamAcquired _ => true
  | Event.channelOpened _ => true
  | _ => false

/-- A translation initiated by `handleTranslationPhase` but not yet
resolved (the source does not await it). -/
structure PendingTranslation where
  role : Role
  text : String
deriving DecidableEq

/-- Result of one operation: the new state, its event trace, and the
fire-and-forget translations it left unresolved. -/
structure StepResult where
  state : AppState
  events : List Event
  pending : List PendingTranslation
deriving DecidableEq

/-- Oracles for the external services and devices. Each field gives the
outcome of the corresponding call of the source; service functions are
the post-`withRetry` composites. -/
structure Env where
  refineToMedicalEnglish : String → String → Except Unit String
  translateAndSpeak : String → String → String → Except Unit TranslateResult
  processConsultation : String → Except Unit ConsultationDraft
  verifyMedication : VerifiedPrescription → Except Unit VerifyResult
  getUserMediaOk : Bool
  sessionCloseResult : Except Unit Unit
  now : Nat

/-- Model of `cleanupSession`: stop the audio stream, then close the
transcription channel. The `session.close()` outcome is discarded by the
source's `try { session.close() } catch (e) {}`, so the close outcome is
read and ignored. -/
def cleanupSession (env : Env) (s : AppState) : AppState × List Event :=
  let step1 : AppState × List Event :=
    if s.streamOpen then ({ s with streamOpen := false }, [Event.streamReleased])
    else (s, [])
  let step2 : AppState × List Event :=
    if step1.1.sessionOpen then
      let _closeOutcome : Except Unit Unit := env.sessionCloseResult
      ({ step1.1 with sessionOpen := false }, [Event.sessionClosed])
    else (step1.1, [])
  (step2.1, step1.2 ++ step2.2)

/-- The scribe branch of `stopLiveSession`: append the optimistic
`ScribeBlock`, call `refineToMedicalEnglish`, and on success attach the
refinement to every block whose `original` equals the finalized text; on
failure the error is only logged. -/
def scribeFinalize (env : Env) (s : AppState) (finalText docLang : String) :
    AppState × List Event :=
  let s3 := { s with scribeBlocks := s.scribeBlocks ++ [{ original := finalText }] }
  match env.refineToMedicalEnglish finalText docLang with
  | Except.ok refined =>
    ({ s3 with scribeBlocks := s3.scribeBlocks.map fun b =>
        if b.original = finalText then { b with refined := some refined } else b },
     [Event.appendScribe finalText, Event.refineCalled finalText docLang])
  | Except.error _ =>
    (s3, [Event.appendScribe finalText, Event.refineCalled finalText docLang])

/-- Model of `stopLiveSession`: signal finalizing, wait the fixed 400ms
grace delay, read the trimmed capture buffer, release resources, reset
the live-capture fields, and dispatch the finalized text. In bilingual
mode with a dialogue role the source calls `handleTranslationPhase`
WITHOUT awaiting it: only its synchronous prefix (setting
`isTranslating` and issuing the translation request) happens here, and
the rest is returned as a `PendingTranslation`. -/
def stopLiveSession (env : Env) (s : AppState) : StepResult :=
  let role := s.currentRole
  let finalText := jsTrim s.captureBuffer
  let cu := cleanupSession env s
  let s2 := { cu.1 with
    isLive := none, currentRole := none, captureBuffer := "",
    isFinalizing := false, currentInput := "" }
  if finalText = "" then
    { state := s2, events := Event.delayMs 400 :: cu.2, pending := [] }
  else
    match role with
    | some Role.Doctor =>
      if s.mode = ConsultationMode.BILINGUAL then
        { state := { s2 with isTranslating := true },
          events := Event.delayMs 400 :: cu.2
            ++ [Event.translateStarted finalText s.docLang s.patLang],
          pending := [{ role := Role.Doctor, text := finalText }] }
      else
        let sf := scribeFinalize env s2 finalText s.docLang
        { state := sf.1, events := Event.delayMs 400 :: cu.2 ++ sf.2, pending := [] }
    | some Role.Patient =>
      if s.mode = ConsultationMode.BILINGUAL then
        { state := { s2 with isTranslating := true },
          events := Event.delayMs 400 :: cu.2
            ++ [Event.translateStarted finalText s.patLang s.docLang],
          pending := [{ role := Role.Patient, text := finalText }] }
      else
        let sf := scribeFinalize env s2 finalText s.docLang
        { state := sf.1, events := Event.delayMs 400 :: cu.2 ++ sf.2, pending := [] }
    | _ =>
      let sf := scribeFinalize env s2 finalText s.docLang
      { state := sf.1, events := Event.delayMs 400 :: cu.2 ++ sf.2, pending := [] }

/-- The resolution of a pending `handleTranslationPhase`: on success the
`DialogueEntry` is appended (with role, original text, translation and
timestamp) and any returned audio is played; on failure the error is
only logged (the entry is dropped); `isTranslating` is reset either
way. -/
def handleTranslationPhaseFinish (env : Env) (r : Role) (text : String)
    (s : AppState) : AppState × List Event :=
  let fromLang := if r = Role.Doctor then s.docLang else s.patLang
  let toLang := if r = Role.Doctor then s.patLang else s.docLang
  match env.translateAndSpeak text fromLang toLang with
  | Except.ok res =>
    ({ s with
        messages := s.messages
          ++ [{ role := r, original := text, translated := some res.translatedText,
                timestamp := env.now }],
        isTranslating := false },
     Event.appendDialogue r text res.translatedText
       :: (if res.audioData = "" then [] else [Event.playAudio]))
  | Except.error _ => ({ s with isTranslating := false }, [])

/-- Model of `toggleMic`: toggling the active role stops the capture;
starting a capture while another role is live first awaits
`stopLiveSession`, then clears the buffers, acquires the microphone
stream and opens the transcription channel (or reports a microphone
error and acquires nothing). -/
def toggleMic (env : Env) (role : Role) (s : AppState) : StepResult :=
  if s.isLive = some role then stopLiveSession env s
  else
    let stopRes : StepResult :=
      if s.isLive.isSome then stopLiveSession env s
      else { state := s, events := [], pending := [] }
    let s1 := { stopRes.state with
      error := none, currentInput := "", captureBuffer := "" }
    if env.getUserMediaOk then
      { state := { s1 with
          streamOpen := true, currentRole := some role, sessionOpen := true,
          isLive := some role },
        events := stopRes.events ++ [Event.streamAcquired role, Event.channelOpened role],
        pending := stopRes.pending }
    else
      { state := { s1 with error := some "Microphone access restricted." },
        events := stopRes.events,
        pending := stopRes.pending }

/-- The transcript-fragment callback wired by `toggleMic`
(`onInputTranscript`): append the fragment, space-joined, to both the
internal capture buffer and the user-visible live text. -/
def onInputTranscript (s : AppState) (text : String) : AppState :=
  { s with
    captureBuffer := jsAppend s.captureBuffer text,
    currentInput := jsAppend s.currentInput text }

/-- Apply a sequence of transcript fragments in arrival order. -/
def applyFragments (s : AppState) (fs : List String) : AppState :=
  fs.foldl onInputTranscript s

/-- The flattened transcript string assembled by `handleAnalyze`. -/
def buildTranscript (s : AppState) : String :=
  if s.mode = ConsultationMode.UNILINGUAL then
    String.intercalate "\n" (s.scribeBlocks.map fun b =>
      b.original ++ " (Refined: " ++ jsTemplate b.refined ++ ")")
  else
    String.intercalate "\n" (s.messages.map fun m =>
      (match m.role with
       | Role.Doctor => "Doctor"
       | Role.Patient => "Patient"
       | Role.Scribe => "Scribe")
        ++ ": " ++ m.original ++ " (interpreted: " ++ jsTemplate m.translated ++ ")")

/-- Model of `handleAnalyze`: stop any active capture (awaited), set the
processing status, assemble the transcript, call `processConsultation`
(which itself throws on an empty transcript before reaching the
service), and either install the draft with the demographics overwritten
by the patient registry record and move to the summary step, or report a
generic analysis error. -/
def handleAnalyze (env : Env) (s : AppState) : StepResult :=
  let stopRes : StepResult :=
    if s.isLive.isSome then stopLiveSession env s
    else { state := s, events := [], pending := [] }
  let s1 := { stopRes.state with status := ProcessingStatus.PROCESSING, error := none }
  let transcript := buildTranscript s1
  let res : Except Unit ConsultationDraft :=
    if jsTrim transcript = "" then Except.error () else env.processConsultation transcript
  match res with
  | Except.ok d =>
    { state := { s1 with
        draft := some { d with demographics := s1.patientDetails },
        step := AppStep.SUMMARY, status := ProcessingStatus.IDLE },
      events := stopRes.events ++ [Event.reasoningCalled transcript],
      pending := stopRes.pending }
  | Except.error _ =>
    { state := { s1 with
        error := some "AI analysis error.", status := ProcessingStatus.IDLE },
      events := stopRes.events ++ [Event.reasoningCalled transcript],
      pending := stopRes.pending }

/-- Fallback element for indexing (the source would crash on an
out-of-range index; theorems carry an in-range hypothesis). -/
def defaultPrescription : VerifiedPrescription :=
  { medicineName := "", dosage := "", morning := false, afternoon := false,
    evening := false, night := false, relationToFood := "After Food",
    duration := "" }

/-- Model of `handleVerifyMedicine`: mark the item `Pending`, call
`verifyMedication` with the item, then mark it `Verified`/`Warning` with
the returned message, or `Warning` with the generic timeout message when
the call itself fails. Returns the intermediate (`Pending`) state, the
final state, and the trace. -/
def handleVerifyMedicine (env : Env) (idx : Nat) (s : AppState) :
    AppState × AppState × List Event :=
  match s.draft with
  | none => (s, s, [])
  | some draft =>
    let pendingList := listUpdate draft.prescriptions idx fun p =>
      { p with verificationStatus := some VerificationStatus.Pending }
    let sPending := { s with draft := some { draft with prescriptions := pendingList } }
    let med := draft.prescriptions.getD idx defaultPrescription
    match env.verifyMedication med with
    | Except.ok result =>
      let finalList := listUpdate pendingList idx fun p =>
        { p with
          verificationStatus :=
            some (if result.isValid then VerificationStatus.Verified
                  else VerificationStatus.Warning),
          verificationError := result.errorMsg }
      (sPending, { s with draft := some { draft with prescriptions := finalList } },
       [Event.verifyCalled med.medicineName med.dosage])
    | Except.error _ =>
      let finalList := listUpdate pendingList idx fun p =>
        { p with
          verificationStatus := some VerificationStatus.Warning,
          verificationError := some "Audit timeout." }
      (sPending, { s with draft := some { draft with prescriptions := finalList } },
       [Event.verifyCalled med.medicineName med.dosage])

/-- The space-join formula of the specification: `f1 ++ " " ++ ... ++ fn`.
This is the spec-side expression the fragment accumulations are compared
against. -/
def specJoin : List String → String
  | [] => ""
  | [f] => f
  | f :: g :: fs => f ++ " " ++ specJoin (g :: fs)

/-- The reset applied to the state by `stopLiveSession` before
dispatching the finalized text. -/
def resetAfterStop (s : AppState) : AppState :=
  { s with
    isLive := none, currentRole := none, captureBuffer := "",
    isFinalizing := false, currentInput := "", streamOpen := false,
    sessionOpen := false }

/-! ## Concrete sample inputs used by the witnesses -/

/-- A neutral starting state (capture screen, nothing live). -/
def baseState : AppState :=
  { step := AppStep.CAPTURE, mode := ConsultationMode.UNILINGUAL,
    docLang := "English", patLang := "Hindi",
    patientDetails := { name := "Madan", age := "35", gender := "Male" },
    scribeBlocks := [], messages := [], currentInput := "",
    draft := none, status := ProcessingStatus.IDLE, error := none,
    isLive := none, isTranslating := false, isFinalizing := false,
    currentRole := none, captureBuffer := "", streamOpen := false,
    sessionOpen := false }

/-- A sample prescription. -/
def samplePrescription : VerifiedPrescription :=
  { medicineName := "Paracetamol", dosage := "500mg", morning := true,
    afternoon := false, evening := false, night := true,
    relationToFood := "After Food", duration := "5 Days" }

/-- A sample draft as returned by the reasoning service. -/
def sampleDraft : ConsultationDraft :=
  { id := "rec-1", date := "2026-01-01", normalizedTranscript := "n",
    demographics := { name := "Inferred", age := "99", gender := "Other" },
    soap := { subjective := "s", objective := "o", assessment := "a", plan := "p" },
    prescriptions := [samplePrescription], suggestedICD10 := [],
    doctorApprovalRequired := "yes" }

/-- A sample service environment where every call succeeds. -/
def sampleEnv : Env :=
  { refineToMedicalEnglish := fun t _ => Except.ok ("Refined: " ++ t),
    translateAndSpeak := fun t _ _ =>
      Except.ok { translatedText := "T:" ++ t, audioData := "" },
    processConsultation := fun _ => Except.ok sampleDraft,
    verifyMedication := fun _ => Except.ok { isValid := true, errorMsg := none },
    getUserMediaOk := true,
    sessionCloseResult := Except.ok (),
    now := 42 }

/-- A state in the middle of a unilingual scribe capture. -/
def liveScribeState : AppState :=
  { baseState with
    isLive := some Role.Scribe, currentRole := some Role.Scribe,
    captureBuffer := "patient has fever", currentInput := "patient has fever",
    streamOpen := true, sessionOpen := true }

/-- A scribe capture whose log already holds a duplicate of the text being
captured. -/
def dupScribeState : AppState :=
  { baseState with
    isLive := some Role.Scribe, currentRole := some Role.Scribe,
    scribeBlocks := [{ original := "patient has fever" }],
    captureBuffer := "patient has fever", currentInput := "patient has fever",
    streamOpen := true, sessionOpen := true }

/-- A finished unilingual session whose log holds one refined entry. -/
def baseScribeLogState : AppState :=
  { baseState with
    scribeBlocks := [{ original := "patient has fever",
                       refined := some "Patient reports fever." }] }

/-- A state holding a draft under review. -/
def draftState : AppState :=
  { baseState with draft := some sampleDraft, step := AppStep.PRESCRIPTION }

/-- A state in the middle of a bilingual doctor capture. -/
def liveDoctorState : AppState :=
  { baseState with
    mode := ConsultationMode.BILINGUAL,
    isLive := some Role.Doctor, currentRole := some Role.Doctor,
    captureBuffer := "hello", currentInput := "hello",
    streamOpen := true, sessionOpen := true }

/-- A quota-style error for the retry witness. -/
def quotaErrorSample : JsError :=
  { status := some 429, message := "quota exceeded" }

/-- An attempt oracle failing with quota errors on the first two attempts. -/
def retryFnSample : Nat → Except JsError Nat :=
  fun n => if n < 2 then Except.error quotaErrorSample else Except.ok 7

/-! ## Helper lemmas -/

/-- Alphabet inversion: the index of the character of a sextet is that
sextet. -/
theorem b64Index_b64Char {n : Nat} (h : n < 64) : b64Index (b64Char n) = some n := by
  have hall : ((List.range 64).all fun n => b64Index (b64Char n) == some n) = true := by
    decide
  have := List.all_eq_true.mp hall n (List.mem_range.mpr h)
  exact eq_of_beq this

/-- Alphabet characters are never the padding character. -/
theorem b64Char_ne_pad {n : Nat} (h : n < 64) : b64Char n ≠ '=' := by
  have hall : ((List.range 64).all fun n => b64Char n != '=') = true := by decide
  have := List.all_eq_true.mp hall n (List.mem_range.mpr h)
  simpa using this

/-- `cleanupSession` always leaves the state with both capture resources
closed and every other field untouched. -/
theorem cleanupSession_state (env : Env) (s : AppState) :
    (cleanupSession env s).1 = { s with streamOpen := false, sessionOpen := false } := by
  cases s
  simp only [cleanupSession]
  split_ifs <;> simp_all

/-- `cleanupSession` emits only release events. -/
theorem cleanupSession_events (env : Env) (s : AppState) :
    ∀ e ∈ (cleanupSession env s).2,
      e = Event.streamReleased ∨ e = Event.sessionClosed := by
  simp only [cleanupSession]
  split_ifs <;> simp_all

/-- With both resources open, `cleanupSession` releases the stream and then
closes the channel. -/
theorem cleanupSession_open (env : Env) (s : AppState)
    (h1 : s.streamOpen = true) (h2 : s.sessionOpen = true) :
    cleanupSession env s
      = ({ s with streamOpen := false, sessionOpen := false },
         [Event.streamReleased, Event.sessionClosed]) := by
  simp [cleanupSession, h1, h2]

/-- `scribeFinalize` always emits exactly the append followed by the
refinement call. -/
theorem scribeFinalize_events (env : Env) (s : AppState) (t l : String) :
    (scribeFinalize env s t l).2 = [Event.appendScribe t, Event.refineCalled t l] := by
  cases hr : env.refineToMedicalEnglish t l <;> simp [scribeFinalize, hr]

/-- `scribeFinalize` preserves the originals and appends one entry whose
original is the finalized text. -/
theorem scribeFinalize_originals (env : Env) (s : AppState) (t l : String) :
    (scribeFinalize env s t l).1.scribeBlocks.map ScribeBlock.original
      = s.scribeBlocks.map ScribeBlock.original ++ [t] := by
  cases hr : env.refineToMedicalEnglish t l
  case ok r =>
    simp [scribeFinalize, hr, Function.comp]
    exact fun b _ => by split <;> simp_all
  case error e => simp [scribeFinalize, hr]

/-- `scribeFinalize` only touches the scribe log. -/
theorem scribeFinalize_frame (env : Env) (s : AppState) (t l : String) :
    (scribeFinalize env s t l).1
      = { s with scribeBlocks := (scribeFinalize env s t l).1.scribeBlocks } := by
  cases hr : env.refineToMedicalEnglish t l <;> simp [scribeFinalize, hr]

/-- After `stopLiveSession` the live-capture fields are reset and both
capture resources are closed, whatever branch was taken. -/
theorem stopLiveSession_reset (env : Env) (s : AppState) :
    (stopLiveSession env s).state.isLive = none ∧
    (stopLiveSession env s).state.currentRole = none ∧
    (stopLiveSession env s).state.captureBuffer = "" ∧
    (stopLiveSession env s).state.currentInput = "" ∧
    (stopLiveSession env s).state.isFinalizing = false ∧
    (stopLiveSession env s).state.streamOpen = false ∧
    (stopLiveSession env s).state.sessionOpen = false := by
  simp only [stopLiveSession, cleanupSession_state env s]
  split
  · simp
  · split <;>
      first
        | (split
           · simp
           · rw [scribeFinalize_frame]
             simp)
        | (rw [scribeFinalize_frame]; simp)

/-- `stopLiveSession` does not touch the dialogue log, the draft, the
demographics, the step, the status, the error display, the mode or the
configured languages. -/
theorem stopLiveSession_frame (env : Env) (s : AppState) :
    (stopLiveSession env s).state.messages = s.messages ∧
    (stopLiveSession env s).state.draft = s.draft ∧
    (stopLiveSession env s).state.patientDetails = s.patientDetails ∧
    (stopLiveSession env s).state.step = s.step ∧
    (stopLiveSession env s).state.status = s.status ∧
    (stopLiveSession env s).state.error = s.error ∧
    (stopLiveSession env s).state.mode = s.mode ∧
    (stopLiveSession env s).state.docLang = s.docLang ∧
    (stopLiveSession env s).state.patLang = s.patLang := by
  simp only [stopLiveSession, cleanupSession_state env s]
  split
  · simp
  · split <;>
      first
        | (split
           · simp
           · rw [scribeFinalize_frame]
             simp)
        | (rw [scribeFinalize_frame]; simp)

/-- With a nonempty trimmed buffer in unilingual mode, `stopLiveSession`
reduces to the scribe finalization of the reset state. -/
theorem stopLiveSession_scribe (env : Env) (s : AppState)
    (hmode : s.mode = ConsultationMode.UNILINGUAL)
    (hne : jsTrim s.captureBuffer ≠ "") :
    stopLiveSession env s
      = { state := (scribeFinalize env (resetAfterStop s) (jsTrim s.captureBuffer) s.docLang).1,
          events := Event.delayMs 400 :: (cleanupSession env s).2
            ++ (scribeFinalize env (resetAfterStop s) (jsTrim s.captureBuffer) s.docLang).2,
          pending := [] } := by
  simp only [stopLiveSession, cleanupSession_state env s, if_neg hne, hmode]
  split <;> simp [resetAfterStop, hmode]

/-- With a nonempty trimmed buffer in bilingual mode and a dialogue role,
`stopLiveSession` resolves to the synchronous prefix of
`handleTranslationPhase`: it starts the translation and leaves it
pending, appending nothing. -/
theorem stopLiveSession_dialogue (env : Env) (s : AppState) (r : Role)
    (hmode : s.mode = ConsultationMode.BILINGUAL)
    (hrole : s.currentRole = some r)
    (hr : r = Role.Doctor ∨ r = Role.Patient)
    (hne : jsTrim s.captureBuffer ≠ "") :
    stopLiveSession env s
      = { state := { resetAfterStop s with isTranslating := true },
          events := Event.delayMs 400 :: (cleanupSession env s).2
            ++ [Event.translateStarted (jsTrim s.captureBuffer)
                  (if r = Role.Doctor then s.docLang else s.patLang)
                  (if r = Role.Doctor then s.patLang else s.docLang)],
          pending := [{ role := r, text := jsTrim s.captureBuffer }] } := by
  rcases hr with rfl | rfl <;>
    simp [stopLiveSession, cleanupSession_state env s, hne, hrole, hmode, resetAfterStop]

/-- Reading any other index of an updated list is unchanged. -/
theorem listUpdate_get_ne {α : Type} (l : List α) (i j : Nat) (f : α → α)
    (h : j ≠ i) : (listUpdate l i f).get? j = l.get? j := by
  induction l generalizing i j with
  | nil => simp [listUpdate]
  | cons a as ih =>
    cases i with
    | zero =>
      cases j with
      | zero => exact absurd rfl h
      | succ j => simp [listUpdate]
    | succ i =>
      cases j with
      | zero => simp [listUpdate]
      | succ j =>
        simp only [listUpdate, List.get?_cons_succ]
        exact ih i j fun hh => h (by omega)

/-- Reading the updated index applies the update. -/
theorem listUpdate_get_eq {α : Type} (l : List α) (i : Nat) (f : α → α) :
    (listUpdate l i f).get? i = (l.get? i).map f := by
  induction l generalizing i with
  | nil => simp [listUpdate]
  | cons a as ih =>
    cases i with
    | zero => simp [listUpdate]
    | succ i =>
      simp only [listUpdate, List.get?_cons_succ]
      exact ih i

/-- `buildTranscript` ignores the status and error fields. -/
theorem buildTranscript_set (s : AppState) (st : ProcessingStatus)
    (er : Option String) :
    buildTranscript { s with status := st, error := er } = buildTranscript s := by
  simp [buildTranscript]

/-- Appending to a nonempty string keeps it nonempty. -/
theorem strAppend_ne_empty (a b : String) (h : a ≠ "") : a ++ b ≠ "" := by
  obtain ⟨la⟩ := a
  obtain ⟨lb⟩ := b
  intro hc
  apply h
  have hc2 : String.mk (la ++ lb) = String.mk [] := hc
  have hl : la ++ lb = [] := by injection hc2
  have hla : la = [] := (List.append_eq_nil.mp hl).1
  simp [hla]

/-- The fragment append keeps a nonempty buffer nonempty. -/
theorem jsAppend_ne_empty (b f : String) (h : b ≠ "") : jsAppend b f ≠ "" := by
  simp only [jsAppend, if_neg h]
  exact strAppend_ne_empty _ _ (strAppend_ne_empty _ _ h)

/-- Folding the fragment append over a nonempty starting buffer produces the
space-join of the buffer and the fragments. -/
theorem foldl_jsAppend (fs : List String) :
    ∀ b, b ≠ "" → fs.foldl jsAppend b = specJoin (b :: fs) := by
  induction fs with
  | nil =>
    intro b hb
    simp [specJoin]
  | cons f fs ih =>
    intro b hb
    have hne : jsAppend b f ≠ "" := jsAppend_ne_empty b f hb
    simp only [List.foldl_cons]
    rw [ih (jsAppend b f) hne]
    cases fs with
    | nil => simp [specJoin, jsAppend, if_neg hb]
    | cons g gs =>
      simp only [specJoin, jsAppend, if_neg hb]
      simp [String.append_assoc]

/-- Both accumulations of `applyFragments` are folds of the fragment
append. -/
theorem applyFragments_buffers (fs : List String) : ∀ (s : AppState),
    (applyFragments s fs).captureBuffer = fs.foldl jsAppend s.captureBuffer ∧
    (applyFragments s fs).currentInput = fs.foldl jsAppend s.currentInput := by
  induction fs with
  | nil =>
    intro s
    exact ⟨rfl, rfl⟩
  | cons f fs ih =>
    intro s
    simpa [applyFragments, onInputTranscript, List.foldl_cons]
      using ih (onInputTranscript s f)

/-- `stopLiveSession` never acquires a capture resource. -/
theorem stopLiveSession_no_acquire (env : Env) (s : AppState) :
    ∀ e ∈ (stopLiveSession env s).events, e.isAcquire = false := by
  have hev := cleanupSession_events env s
  have hcle : ∀ e ∈ (cleanupSession env s).2, e.isAcquire = false := by
    intro e he
    rcases hev e he with rfl | rfl <;> rfl
  intro e he
  simp only [stopLiveSession] at he
  split at he
  · rcases List.mem_cons.mp he with rfl | h
    · rfl
    · exact hcle e h
  · split at he <;>
      [split at he; split at he; skip] <;>
      (try simp only [scribeFinalize_events] at he) <;>
      (rcases List.mem_cons.mp he with rfl | h
       · rfl
       · rcases List.mem_append.mp h with h2 | h2
         · exact hcle e h2
         · simp only [List.mem_cons, List.mem_singleton, List.not_mem_nil,
             or_false] at h2
           rcases h2 with rfl | rfl <;> rfl)

/-- With both resources open, the stop trace is the grace delay, then the
stream release, then the channel close, then the dispatch events. -/
theorem stopLiveSession_events_open (env : Env) (s : AppState)
    (h1 : s.streamOpen = true) (h2 : s.sessionOpen = true) :
    ∃ tl, (stopLiveSession env s).events
        = Event.delayMs 400 :: Event.streamReleased :: Event.sessionClosed :: tl := by
  simp only [stopLiveSession, cleanupSession_open env s h1 h2]
  split
  · exact ⟨_, rfl⟩
  · split <;> first
      | exact ⟨_, rfl⟩
      | (split
         · exact ⟨_, rfl⟩
         · exact ⟨_, rfl⟩)

/-! ## Claim theorems -/

/-- C5: an external-service call wrapped in `withRetry` (defaults:
2 retries, initial delay 200ms, doubling) retries quota-class failures:
two quota failures followed by a success yield the success after
200 + 400 = 600ms of accumulated delay; three quota failures surface the
"system busy" `QuotaError` after the same delay; a non-quota failure is
surfaced immediately with no retry and no delay. -/
theorem withRetry_spec {A : Type} (fn : Nat → Except JsError A) :
    (∀ e0 e1 a, isQuotaError e0 = true → isQuotaError e1 = true →
      fn 0 = Except.error e0 → fn 1 = Except.error e1 → fn 2 = Except.ok a →
      withRetry fn 2 200 0 = (Except.ok a, 600)) ∧
    (∀ e, isQuotaError e = false → fn 0 = Except.error e →
      withRetry fn 2 200 0 = (Except.error e, 0)) ∧
    (∀ e0 e1 e2, isQuotaError e0 = true → isQuotaError e1 = true →
      isQuotaError e2 = true →
      fn 0 = Except.error e0 → fn 1 = Except.error e1 → fn 2 = Except.error e2 →
      withRetry fn 2 200 0 = (Except.error systemBusyError, 600)) := by
  refine ⟨?_, ?_, ?_⟩
  · intro e0 e1 a hq0 hq1 h0 h1 h2
    simp [withRetry, h0, h1, h2, hq0, hq1]
  · intro e hq h0
    simp [withRetry, h0, hq]
  · intro e0 e1 e2 hq0 hq1 hq2 h0 h1 h2
    simp [withRetry, h0, h1, h2, hq0, hq1, hq2]

theorem withRetry_spec_witness :
    isQuotaError quotaErrorSample = true ∧
    retryFnSample 0 = Except.error quotaErrorSample ∧
    retryFnSample 1 = Except.error quotaErrorSample ∧
    retryFnSample 2 = Except.ok 7 ∧
    withRetry retryFnSample 2 200 0 = (Except.ok 7, 600) :=
  ⟨by decide, by decide, by decide, by decide,
    (withRetry_spec retryFnSample).1 quotaErrorSample quotaErrorSample 7
      (by decide) (by decide) (by decide) (by decide) (by decide)⟩

/-- C10: `decode` inverts `encode` on every byte list: the base64 helpers
used for audio payloads round-trip byte arrays unchanged. -/
theorem decode_encode_roundtrip :
    ∀ (l : List Nat), (∀ x ∈ l, x < 256) → decode (encode l) = some l
  | [] => fun _ => by simp [encode, decode]
  | [a] => fun h => by
    have ha : a < 256 := h a (by simp)
    have i0 := b64Index_b64Char (n := a / 4) (by omega)
    have i1 := b64Index_b64Char (n := a % 4 * 16) (by omega)
    simp only [encode, decode, i0, i1, and_self, if_true]
    rw [show a / 4 * 4 + a % 4 * 16 / 16 = a from by omega]
  | [a, b] => fun h => by
    have ha : a < 256 := h a (by simp)
    have hb : b < 256 := h b (by simp)
    have i0 := b64Index_b64Char (n := a / 4) (by omega)
    have i1 := b64Index_b64Char (n := a % 4 * 16 + b / 16) (by omega)
    have i2 := b64Index_b64Char (n := b % 16 * 4) (by omega)
    have n2 := b64Char_ne_pad (n := b % 16 * 4) (by omega)
    simp only [encode, decode, i0, i1, i2, n2, if_false, if_true, and_self]
    rw [show a / 4 * 4 + (a % 4 * 16 + b / 16) / 16 = a from by omega,
      show (a % 4 * 16 + b / 16) % 16 * 16 + b % 16 * 4 / 4 = b from by omega]
  | a :: b :: c :: rest => fun h => by
    have ha : a < 256 := h a (by simp)
    have hb : b < 256 := h b (by simp)
    have hc : c < 256 := h c (by simp)
    have ih := decode_encode_roundtrip rest fun x hx => h x (by simp [hx])
    have i0 := b64Index_b64Char (n := a / 4) (by omega)
    have i1 := b64Index_b64Char (n := a % 4 * 16 + b / 16) (by omega)
    have i2 := b64Index_b64Char (n := b % 16 * 4 + c / 64) (by omega)
    have i3 := b64Index_b64Char (n := c % 64) (by omega)
    have n2 := b64Char_ne_pad (n := b % 16 * 4 + c / 64) (by omega)
    have n3 := b64Char_ne_pad (n := c % 64) (by omega)
    simp only [encode, decode, i0, i1, i2, i3, n2, n3, if_false, if_true, ih]
    rw [show a / 4 * 4 + (a % 4 * 16 + b / 16) / 16 = a from by omega,
      show (a % 4 * 16 + b / 16) % 16 * 16 + (b % 16 * 4 + c / 64) / 4 = b from by omega,
      show (b % 16 * 4 + c / 64) % 4 * 64 + c % 64 = c from by omega]

theorem decode_encode_roundtrip_witness :
    (∀ x ∈ [0, 77, 127, 255, 64, 1], x < 256) ∧
    decode (encode [0, 77, 127, 255, 64, 1]) = some [0, 77, 127, 255, 64, 1] :=
  ⟨by decide, decode_encode_roundtrip [0, 77, 127, 255, 64, 1] (by decide)⟩

/-- C6: `stopLiveSession` waits the fixed 400ms grace delay first, then
releases the audio stream and closes the transcription channel — with an
identical outcome whatever the close outcome is (close errors are
tolerated) — clears the active role and the buffer, ends the finalizing
phase (session back to idle), and takes the trimmed capture buffer as the
finalized text (witnessed by the appended scribe original in unilingual
mode). -/
theorem stopCapture_contract (env : Env) (s : AppState)
    (h1 : s.streamOpen = true) (h2 : s.sessionOpen = true) :
    (∃ tl, (stopLiveSession env s).events
        = Event.delayMs 400 :: Event.streamReleased :: Event.sessionClosed :: tl) ∧
    (stopLiveSession env s).state.isLive = none ∧
    (stopLiveSession env s).state.currentRole = none ∧
    (stopLiveSession env s).state.captureBuffer = "" ∧
    (stopLiveSession env s).state.isFinalizing = false ∧
    (stopLiveSession env s).state.streamOpen = false ∧
    (stopLiveSession env s).state.sessionOpen = false ∧
    (∀ closeRes, stopLiveSession { env with sessionCloseResult := closeRes } s
        = stopLiveSession env s) ∧
    (s.mode = ConsultationMode.UNILINGUAL → jsTrim s.captureBuffer ≠ "" →
      (stopLiveSession env s).state.scribeBlocks.map ScribeBlock.original
        = s.scribeBlocks.map ScribeBlock.original ++ [jsTrim s.captureBuffer]) := by
  obtain ⟨r1, r2, r3, r4, r5, r6, r7⟩ := stopLiveSession_reset env s
  refine ⟨stopLiveSession_events_open env s h1 h2, r1, r2, r3, r5, r6, r7,
    fun closeRes => rfl, ?_⟩
  · intro hmode hne
    simp only [stopLiveSession, cleanupSession_state env s, if_neg hne, hmode]
    split <;> simp [scribeFinalize_originals]

theorem stopCapture_contract_witness :
    liveScribeState.streamOpen = true ∧ liveScribeState.sessionOpen = true ∧
    ((∃ tl, (stopLiveSession sampleEnv liveScribeState).events
        = Event.delayMs 400 :: Event.streamReleased :: Event.sessionClosed :: tl) ∧
     (stopLiveSession sampleEnv liveScribeState).state.isLive = none ∧
     (stopLiveSession sampleEnv liveScribeState).state.currentRole = none ∧
     (stopLiveSession sampleEnv liveScribeState).state.captureBuffer = "" ∧
     (stopLiveSession sampleEnv liveScribeState).state.isFinalizing = false ∧
     (stopLiveSession sampleEnv liveScribeState).state.streamOpen = false ∧
     (stopLiveSession sampleEnv liveScribeState).state.sessionOpen = false ∧
     (∀ closeRes,
        stopLiveSession { sampleEnv with sessionCloseResult := closeRes } liveScribeState
          = stopLiveSession sampleEnv liveScribeState) ∧
     (liveScribeState.mode = ConsultationMode.UNILINGUAL →
      jsTrim liveScribeState.captureBuffer ≠ "" →
      (stopLiveSession sampleEnv liveScribeState).state.scribeBlocks.map ScribeBlock.original
        = liveScribeState.scribeBlocks.map ScribeBlock.original
          ++ [jsTrim liveScribeState.captureBuffer])) :=
  ⟨by decide, by decide,
    stopCapture_contract sampleEnv liveScribeState (by decide) (by decide)⟩

/-- C7: when the trimmed capture buffer is empty (in particular when no
capture is active), `stopLiveSession` leaves both transcript logs
untouched, initiates no post-processing (no pending translation), and
its trace contains only the grace delay and resource releases — no
refinement call, no translation, no log append. -/
theorem stopCapture_empty_noop (env : Env) (s : AppState)
    (h : jsTrim s.captureBuffer = "") :
    (stopLiveSession env s).state.scribeBlocks = s.scribeBlocks ∧
    (stopLiveSession env s).state.messages = s.messages ∧
    (stopLiveSession env s).pending = [] ∧
    (∀ e ∈ (stopLiveSession env s).events,
      e = Event.delayMs 400 ∨ e = Event.streamReleased ∨ e = Event.sessionClosed) := by
  have hev := cleanupSession_events env s
  simp only [stopLiveSession, cleanupSession_state env s, h, if_true]
  refine ⟨trivial, trivial, trivial, ?_⟩
  intro e he
  simp only [List.mem_cons] at he
  rcases he with rfl | he
  · exact Or.inl rfl
  · rcases hev e he with h' | h'
    · exact Or.inr (Or.inl h')
    · exact Or.inr (Or.inr h')

theorem stopCapture_empty_noop_witness :
    jsTrim baseState.captureBuffer = "" ∧
    ((stopLiveSession sampleEnv baseState).state.scribeBlocks = baseState.scribeBlocks ∧
     (stopLiveSession sampleEnv baseState).state.messages = baseState.messages ∧
     (stopLiveSession sampleEnv baseState).pending = [] ∧
     (∀ e ∈ (stopLiveSession sampleEnv baseState).events,
       e = Event.delayMs 400 ∨ e = Event.streamReleased ∨ e = Event.sessionClosed)) :=
  ⟨by decide, stopCapture_empty_noop sampleEnv baseState (by decide)⟩

/-- C3: finalizing a non-empty utterance in unilingual (scribe) mode
appends a `ScribeBlock` whose `original` is the finalized text before the
refinement call is issued (the append precedes the refinement in the
trace); on refinement success every log entry whose `original` equals the
finalized text — duplicates included — gets its `refined` field set to
the service output for that exact text, and entries with a different
`original` are untouched; on refinement failure the appended entry stays
unrefined and no user-visible error is set. -/
theorem scribeRefinement_spec (env : Env) (s : AppState)
    (hmode : s.mode = ConsultationMode.UNILINGUAL)
    (hne : jsTrim s.captureBuffer ≠ "") :
    (∃ pre, (stopLiveSession env s).events
        = pre ++ [Event.appendScribe (jsTrim s.captureBuffer),
                  Event.refineCalled (jsTrim s.captureBuffer) s.docLang]) ∧
    (∀ out, env.refineToMedicalEnglish (jsTrim s.captureBuffer) s.docLang
        = Except.ok out →
      (stopLiveSession env s).state.scribeBlocks.length = s.scribeBlocks.length + 1 ∧
      (∀ b ∈ (stopLiveSession env s).state.scribeBlocks,
        b.original = jsTrim s.captureBuffer → b.refined = some out) ∧
      (∀ b ∈ (stopLiveSession env s).state.scribeBlocks,
        b.original ≠ jsTrim s.captureBuffer → b ∈ s.scribeBlocks)) ∧
    (∀ e, env.refineToMedicalEnglish (jsTrim s.captureBuffer) s.docLang
        = Except.error e →
      (stopLiveSession env s).state.scribeBlocks
        = s.scribeBlocks ++ [{ original := jsTrim s.captureBuffer }] ∧
      (stopLiveSession env s).state.error = s.error) := by
  rw [stopLiveSession_scribe env s hmode hne]
  refine ⟨⟨Event.delayMs 400 :: (cleanupSession env s).2,
    by simp [scribeFinalize_events]⟩, ?_, ?_⟩
  · intro out hout
    simp only [scribeFinalize, hout, resetAfterStop]
    refine ⟨by simp, ?_, ?_⟩
    · intro b hb hbo
      simp only [List.mem_map] at hb
      obtain ⟨b0, hb0, rfl⟩ := hb
      by_cases h0 : b0.original = jsTrim s.captureBuffer
      · simp [h0]
      · simp only [if_neg h0] at hbo ⊢
        exact absurd hbo h0
    · intro b hb hbo
      simp only [List.mem_map] at hb
      obtain ⟨b0, hb0, rfl⟩ := hb
      by_cases h0 : b0.original = jsTrim s.captureBuffer
      · simp only [if_pos h0] at hbo
        exact absurd h0 (by simpa using hbo)
      · simp only [if_neg h0] at hbo ⊢
        simp only [List.mem_append, List.mem_singleton] at hb0
        rcases hb0 with h | h
        · exact h
        · subst h
          exact absurd rfl h0
  · intro e he
    simp [scribeFinalize, he, resetAfterStop]

theorem scribeRefinement_spec_witness :
    dupScribeState.mode = ConsultationMode.UNILINGUAL ∧
    jsTrim dupScribeState.captureBuffer ≠ "" ∧
    ((∃ pre, (stopLiveSession sampleEnv dupScribeState).events
        = pre ++ [Event.appendScribe (jsTrim dupScribeState.captureBuffer),
                  Event.refineCalled (jsTrim dupScribeState.captureBuffer)
                    dupScribeState.docLang]) ∧
     (∀ out, sampleEnv.refineToMedicalEnglish (jsTrim dupScribeState.captureBuffer)
         dupScribeState.docLang = Except.ok out →
       (stopLiveSession sampleEnv dupScribeState).state.scribeBlocks.length
         = dupScribeState.scribeBlocks.length + 1 ∧
       (∀ b ∈ (stopLiveSession sampleEnv dupScribeState).state.scribeBlocks,
         b.original = jsTrim dupScribeState.captureBuffer → b.refined = some out) ∧
       (∀ b ∈ (stopLiveSession sampleEnv dupScribeState).state.scribeBlocks,
         b.original ≠ jsTrim dupScribeState.captureBuffer →
           b ∈ dupScribeState.scribeBlocks)) ∧
     (∀ e, sampleEnv.refineToMedicalEnglish (jsTrim dupScribeState.captureBuffer)
         dupScribeState.docLang = Except.error e →
       (stopLiveSession sampleEnv dupScribeState).state.scribeBlocks
         = dupScribeState.scribeBlocks
           ++ [{ original := jsTrim dupScribeState.captureBuffer }] ∧
       (stopLiveSession sampleEnv dupScribeState).state.error
         = dupScribeState.error)) :=
  ⟨by decide, by decide,
    scribeRefinement_spec sampleEnv dupScribeState (by decide) (by decide)⟩

/-- C4: finalizing a non-empty utterance in bilingual mode appends
nothing synchronously and leaves exactly one pending translation; when
that translation resolves successfully, exactly one `DialogueEntry` with
the role, the original text, the returned translation and a timestamp is
appended; when it fails, zero entries are appended and no user-visible
error is set (the failure is only logged). -/
theorem dialogueEntry_spec (env : Env) (s : AppState) (r : Role)
    (hmode : s.mode = ConsultationMode.BILINGUAL)
    (hrole : s.currentRole = some r)
    (hr : r = Role.Doctor ∨ r = Role.Patient)
    (hne : jsTrim s.captureBuffer ≠ "") :
    (stopLiveSession env s).state.messages = s.messages ∧
    (stopLiveSession env s).state.scribeBlocks = s.scribeBlocks ∧
    (stopLiveSession env s).pending
      = [{ role := r, text := jsTrim s.captureBuffer }] ∧
    (∀ s1 res,
      env.translateAndSpeak (jsTrim s.captureBuffer)
        (if r = Role.Doctor then s1.docLang else s1.patLang)
        (if r = Role.Doctor then s1.patLang else s1.docLang) = Except.ok res →
      (handleTranslationPhaseFinish env r (jsTrim s.captureBuffer) s1).1.messages
        = s1.messages ++ [{
            role := r, original := jsTrim s.captureBuffer,
            translated := some res.translatedText, timestamp := env.now }]) ∧
    (∀ s1 e,
      env.translateAndSpeak (jsTrim s.captureBuffer)
        (if r = Role.Doctor then s1.docLang else s1.patLang)
        (if r = Role.Doctor then s1.patLang else s1.docLang) = Except.error e →
      (handleTranslationPhaseFinish env r (jsTrim s.captureBuffer) s1).1.messages
        = s1.messages ∧
      (handleTranslationPhaseFinish env r (jsTrim s.captureBuffer) s1).1.error
        = s1.error) := by
  rw [stopLiveSession_dialogue env s r hmode hrole hr hne]
  refine ⟨by simp [resetAfterStop], by simp [resetAfterStop], rfl, ?_, ?_⟩
  · intro s1 res hres
    simp [handleTranslationPhaseFinish, hres]
  · intro s1 e he
    simp [handleTranslationPhaseFinish, he]

theorem dialogueEntry_spec_witness :
    liveDoctorState.mode = ConsultationMode.BILINGUAL ∧
    liveDoctorState.currentRole = some Role.Doctor ∧
    (Role.Doctor = Role.Doctor ∨ Role.Doctor = Role.Patient) ∧
    jsTrim liveDoctorState.captureBuffer ≠ "" ∧
    ((stopLiveSession sampleEnv liveDoctorState).state.messages
        = liveDoctorState.messages ∧
     (stopLiveSession sampleEnv liveDoctorState).state.scribeBlocks
        = liveDoctorState.scribeBlocks ∧
     (stopLiveSession sampleEnv liveDoctorState).pending
        = [{ role := Role.Doctor, text := jsTrim liveDoctorState.captureBuffer }] ∧
     (∀ s1 res,
       sampleEnv.translateAndSpeak (jsTrim liveDoctorState.captureBuffer)
         (if Role.Doctor = Role.Doctor then s1.docLang else s1.patLang)
         (if Role.Doctor = Role.Doctor then s1.patLang else s1.docLang)
           = Except.ok res →
       (handleTranslationPhaseFinish sampleEnv Role.Doctor
           (jsTrim liveDoctorState.captureBuffer) s1).1.messages
         = s1.messages ++ [{
             role := Role.Doctor,
             original := jsTrim liveDoctorState.captureBuffer,
             translated := some res.translatedText, timestamp := sampleEnv.now }]) ∧
     (∀ s1 e,
       sampleEnv.translateAndSpeak (jsTrim liveDoctorState.captureBuffer)
         (if Role.Doctor = Role.Doctor then s1.docLang else s1.patLang)
         (if Role.Doctor = Role.Doctor then s1.patLang else s1.docLang)
           = Except.error e →
       (handleTranslationPhaseFinish sampleEnv Role.Doctor
           (jsTrim liveDoctorState.captureBuffer) s1).1.messages = s1.messages ∧
       (handleTranslationPhaseFinish sampleEnv Role.Doctor
           (jsTrim liveDoctorState.captureBuffer) s1).1.error = s1.error)) :=
  ⟨by decide, by decide, Or.inl rfl, by decide,
    dialogueEntry_spec sampleEnv liveDoctorState Role.Doctor
      (by decide) (by decide) (Or.inl rfl) (by decide)⟩

/-- C8: `handleVerifyMedicine idx` first produces a state in which that
prescription alone is marked `Pending`, calls the audit service with the
item (its name and dosage appear in the trace), and in the final state
marks the item `Verified` when the service reports valid and `Warning`
with the returned message otherwise; if the call itself fails, the item
is marked `Warning` with the generic timeout message. All other
prescriptions and the other draft fields are unchanged in both states. -/
theorem verifyMedicine_spec (env : Env) (idx : Nat) (s : AppState)
    (d : ConsultationDraft) (med : VerifiedPrescription)
    (hd : s.draft = some d)
    (hmed : med = d.prescriptions.getD idx defaultPrescription)
    (_hidx : idx < d.prescriptions.length) :
    (∃ dp, (handleVerifyMedicine env idx s).1.draft = some dp ∧
      dp.prescriptions.get? idx = (d.prescriptions.get? idx).map (fun p =>
        { p with verificationStatus := some VerificationStatus.Pending }) ∧
      (∀ j, j ≠ idx → dp.prescriptions.get? j = d.prescriptions.get? j)) ∧
    (handleVerifyMedicine env idx s).2.2
      = [Event.verifyCalled med.medicineName med.dosage] ∧
    (∃ df, (handleVerifyMedicine env idx s).2.1.draft = some df ∧
      (∀ j, j ≠ idx → df.prescriptions.get? j = d.prescriptions.get? j) ∧
      df.soap = d.soap ∧ df.demographics = d.demographics ∧
      df.suggestedICD10 = d.suggestedICD10 ∧
      (∀ res, env.verifyMedication med = Except.ok res →
        df.prescriptions.get? idx = (d.prescriptions.get? idx).map fun p =>
          { p with
            verificationStatus := some (if res.isValid then VerificationStatus.Verified
              else VerificationStatus.Warning),
            verificationError := res.errorMsg }) ∧
      (∀ e, env.verifyMedication med = Except.error e →
        df.prescriptions.get? idx = (d.prescriptions.get? idx).map fun p =>
          { p with
            verificationStatus := some VerificationStatus.Warning,
            verificationError := some "Audit timeout." })) := by
  subst hmed
  simp only [handleVerifyMedicine, hd]
  cases hv : env.verifyMedication (d.prescriptions.getD idx defaultPrescription) with
  | ok result =>
    refine ⟨⟨_, rfl, listUpdate_get_eq _ _ _, fun j hj => listUpdate_get_ne _ _ _ _ hj⟩,
      rfl, _, rfl,
      fun j hj => by
        rw [listUpdate_get_ne _ _ _ _ hj, listUpdate_get_ne _ _ _ _ hj],
      rfl, rfl, rfl, ?_, ?_⟩
    · intro res hres
      obtain rfl : result = res := by injection hres
      simp only [listUpdate_get_eq]
      cases d.prescriptions.get? idx <;> simp
    · intro e he
      exact absurd he (by simp)
  | error err =>
    refine ⟨⟨_, rfl, listUpdate_get_eq _ _ _, fun j hj => listUpdate_get_ne _ _ _ _ hj⟩,
      rfl, _, rfl,
      fun j hj => by
        rw [listUpdate_get_ne _ _ _ _ hj, listUpdate_get_ne _ _ _ _ hj],
      rfl, rfl, rfl, ?_, ?_⟩
    · intro res hres
      exact absurd hres (by simp)
    · intro e he
      simp only [listUpdate_get_eq]
      cases d.prescriptions.get? idx <;> simp

theorem verifyMedicine_spec_witness :
    draftState.draft = some sampleDraft ∧
    samplePrescription = sampleDraft.prescriptions.getD 0 defaultPrescription ∧
    0 < sampleDraft.prescriptions.length ∧
    ((∃ dp, (handleVerifyMedicine sampleEnv 0 draftState).1.draft = some dp ∧
      dp.prescriptions.get? 0 = (sampleDraft.prescriptions.get? 0).map (fun p =>
        { p with verificationStatus := some VerificationStatus.Pending }) ∧
      (∀ j, j ≠ 0 → dp.prescriptions.get? j = sampleDraft.prescriptions.get? j)) ∧
    (handleVerifyMedicine sampleEnv 0 draftState).2.2
      = [Event.verifyCalled samplePrescription.medicineName samplePrescription.dosage] ∧
    (∃ df, (handleVerifyMedicine sampleEnv 0 draftState).2.1.draft = some df ∧
      (∀ j, j ≠ 0 → df.prescriptions.get? j = sampleDraft.prescriptions.get? j) ∧
      df.soap = sampleDraft.soap ∧ df.demographics = sampleDraft.demographics ∧
      df.suggestedICD10 = sampleDraft.suggestedICD10 ∧
      (∀ res, sampleEnv.verifyMedication samplePrescription = Except.ok res →
        df.prescriptions.get? 0 = (sampleDraft.prescriptions.get? 0).map fun p =>
          { p with
            verificationStatus := some (if res.isValid then VerificationStatus.Verified
              else VerificationStatus.Warning),
            verificationError := res.errorMsg }) ∧
      (∀ e, sampleEnv.verifyMedication samplePrescription = Except.error e →
        df.prescriptions.get? 0 = (sampleDraft.prescriptions.get? 0).map fun p =>
          { p with
            verificationStatus := some VerificationStatus.Warning,
            verificationError := some "Audit timeout." }))) :=
  ⟨by decide, by decide, by decide,
    verifyMedicine_spec sampleEnv 0 draftState sampleDraft samplePrescription
      (by decide) (by decide) (by decide)⟩

/-- C2: `handleAnalyze` stops any active capture first — the final state
has no live capture and the reasoning call is the last event, after every
stop event; on reasoning success the returned draft is installed with its
demographics overwritten by the current patient-demographics record and
the UI moves to the summary (review) step; on reasoning failure (or an
empty transcript, which the service rejects) a generic analysis error is
reported while the transcript log, the demographics and the draft are
exactly those of the post-stop state, allowing retry. -/
theorem analyze_spec (env : Env) (s : AppState) (s1 : AppState) (t : String)
    (hs1 : s1 = (if s.isLive.isSome then (stopLiveSession env s).state else s))
    (ht : t = buildTranscript s1) :
    (handleAnalyze env s).state.isLive = none ∧
    (handleAnalyze env s).events
      = (if s.isLive.isSome then (stopLiveSession env s).events else [])
        ++ [Event.reasoningCalled t] ∧
    (∀ d, jsTrim t ≠ "" → env.processConsultation t = Except.ok d →
      (handleAnalyze env s).state.draft
          = some { d with demographics := s.patientDetails } ∧
      (handleAnalyze env s).state.step = AppStep.SUMMARY ∧
      (handleAnalyze env s).state.status = ProcessingStatus.IDLE ∧
      (handleAnalyze env s).state.error = none) ∧
    ((jsTrim t = "" ∨ env.processConsultation t = Except.error ()) →
      (handleAnalyze env s).state.error = some "AI analysis error." ∧
      (handleAnalyze env s).state.draft = s1.draft ∧
      (handleAnalyze env s).state.scribeBlocks = s1.scribeBlocks ∧
      (handleAnalyze env s).state.messages = s1.messages ∧
      (handleAnalyze env s).state.patientDetails = s.patientDetails ∧
      (handleAnalyze env s).state.step = s1.step ∧
      (handleAnalyze env s).state.status = ProcessingStatus.IDLE) := by
  subst hs1 ht
  by_cases hlive : s.isLive.isSome
  · obtain ⟨hmsg, hdraft, hpat, hstep, hstat, herr, hmode, hdoc, hpatl⟩ :=
      stopLiveSession_frame env s
    obtain ⟨rliv, -, -, -, -, -, -⟩ := stopLiveSession_reset env s
    simp only [handleAnalyze, if_pos hlive, buildTranscript_set]
    by_cases hτ : jsTrim (buildTranscript (stopLiveSession env s).state) = ""
    · rw [if_pos hτ]
      refine ⟨rliv, rfl, ?_, ?_⟩
      · intro d hne hok
        exact absurd hτ hne
      · intro _
        exact ⟨rfl, rfl, rfl, rfl, hpat, rfl, rfl⟩
    · rw [if_neg hτ]
      cases hok : env.processConsultation (buildTranscript (stopLiveSession env s).state) with
      | ok d =>
        refine ⟨rliv, rfl, ?_, ?_⟩
        · intro d' hne hok'
          obtain rfl : d = d' := by injection hok'
          exact ⟨by rw [hpat], rfl, rfl, rfl⟩
        · intro hfail
          rcases hfail with h | h
          · exact absurd h hτ
          · exact absurd h (by simp)
      | error e =>
        refine ⟨rliv, rfl, ?_, ?_⟩
        · intro d' hne hok'
          exact absurd hok' (by simp)
        · intro _
          exact ⟨rfl, rfl, rfl, rfl, hpat, rfl, rfl⟩
  · have hnone : s.isLive = none := by
      cases hl : s.isLive
      · rfl
      · rw [hl] at hlive
        exact absurd rfl hlive
    simp only [handleAnalyze, if_neg hlive, buildTranscript_set]
    by_cases hτ : jsTrim (buildTranscript s) = ""
    · rw [if_pos hτ]
      refine ⟨hnone, rfl, ?_, ?_⟩
      · intro d hne hok
        exact absurd hτ hne
      · intro _
        exact ⟨rfl, rfl, rfl, rfl, rfl, rfl, rfl⟩
    · rw [if_neg hτ]
      cases hok : env.processConsultation (buildTranscript s) with
      | ok d =>
        refine ⟨hnone, rfl, ?_, ?_⟩
        · intro d' hne hok'
          obtain rfl : d = d' := by injection hok'
          exact ⟨rfl, rfl, rfl, rfl⟩
        · intro hfail
          rcases hfail with h | h
          · exact absurd h hτ
          · exact absurd h (by simp)
      | error e =>
        refine ⟨hnone, rfl, ?_, ?_⟩
        · intro d' hne hok'
          exact absurd hok' (by simp)
        · intro _
          exact ⟨rfl, rfl, rfl, rfl, rfl, rfl, rfl⟩

theorem analyze_spec_witness :
    baseScribeLogState
        = (if baseScribeLogState.isLive.isSome
           then (stopLiveSession sampleEnv baseScribeLogState).state
           else baseScribeLogState) ∧
    buildTranscript baseScribeLogState = buildTranscript baseScribeLogState ∧
    ((handleAnalyze sampleEnv baseScribeLogState).state.isLive = none ∧
     (handleAnalyze sampleEnv baseScribeLogState).events
       = (if baseScribeLogState.isLive.isSome
          then (stopLiveSession sampleEnv baseScribeLogState).events else [])
         ++ [Event.reasoningCalled (buildTranscript baseScribeLogState)] ∧
     (∀ d, jsTrim (buildTranscript baseScribeLogState) ≠ "" →
       sampleEnv.processConsultation (buildTranscript baseScribeLogState)
         = Except.ok d →
       (handleAnalyze sampleEnv baseScribeLogState).state.draft
           = some { d with demographics := baseScribeLogState.patientDetails } ∧
       (handleAnalyze sampleEnv baseScribeLogState).state.step = AppStep.SUMMARY ∧
       (handleAnalyze sampleEnv baseScribeLogState).state.status
           = ProcessingStatus.IDLE ∧
       (handleAnalyze sampleEnv baseScribeLogState).state.error = none) ∧
     ((jsTrim (buildTranscript baseScribeLogState) = "" ∨
       sampleEnv.processConsultation (buildTranscript baseScribeLogState)
         = Except.error ()) →
       (handleAnalyze sampleEnv baseScribeLogState).state.error
           = some "AI analysis error." ∧
       (handleAnalyze sampleEnv baseScribeLogState).state.draft
           = baseScribeLogState.draft ∧
       (handleAnalyze sampleEnv baseScribeLogState).state.scribeBlocks
           = baseScribeLogState.scribeBlocks ∧
       (handleAnalyze sampleEnv baseScribeLogState).state.messages
           = baseScribeLogState.messages ∧
       (handleAnalyze sampleEnv baseScribeLogState).state.patientDetails
           = baseScribeLogState.patientDetails ∧
       (handleAnalyze sampleEnv baseScribeLogState).state.step
           = baseScribeLogState.step ∧
       (handleAnalyze sampleEnv baseScribeLogState).state.status
           = ProcessingStatus.IDLE)) :=
  ⟨by decide, rfl,
    analyze_spec sampleEnv baseScribeLogState baseScribeLogState
      (buildTranscript baseScribeLogState) (by decide) rfl⟩

/-- C9 (amended): during a capture every incoming fragment is appended,
space-joined and in arrival order, to both the internal capture buffer
and the live display text; provided every fragment is nonempty, after
fragments `f1..fn` both accumulations equal `f1 ++ " " ++ ... ++ fn`
(with an empty fragment the code emits no separator while the buffer is
still empty, see the counterexample); both accumulations are cleared
whenever a new capture starts. -/
theorem fragmentAccumulation_spec :
    (∀ (s : AppState) (fs : List String),
      s.captureBuffer = "" → s.currentInput = "" → (∀ f ∈ fs, f ≠ "") →
      (applyFragments s fs).captureBuffer = specJoin fs ∧
      (applyFragments s fs).currentInput = specJoin fs) ∧
    (∀ (env : Env) (r : Role) (s : AppState), s.isLive ≠ some r →
      (toggleMic env r s).state.captureBuffer = "" ∧
      (toggleMic env r s).state.currentInput = "") := by
  constructor
  · intro s fs hcb hci hfs
    obtain ⟨h1, h2⟩ := applyFragments_buffers fs s
    rw [h1, h2, hcb, hci]
    cases fs with
    | nil => exact ⟨rfl, rfl⟩
    | cons f fs =>
      have hf : f ≠ "" := hfs f (by simp)
      have hfirst : jsAppend "" f = f := rfl
      simp only [List.foldl_cons, hfirst]
      constructor <;> exact foldl_jsAppend fs f hf
  · intro env r s h
    simp only [toggleMic, if_neg h]
    split <;> simp

theorem fragmentAccumulation_spec_witness :
    baseState.captureBuffer = "" ∧ baseState.currentInput = "" ∧
    (∀ f ∈ ["patient", "has", "fever"], f ≠ "") ∧
    (applyFragments baseState ["patient", "has", "fever"]).captureBuffer
      = specJoin ["patient", "has", "fever"] ∧
    (applyFragments baseState ["patient", "has", "fever"]).currentInput
      = specJoin ["patient", "has", "fever"] ∧
    liveDoctorState.isLive ≠ some Role.Scribe ∧
    (toggleMic sampleEnv Role.Scribe liveDoctorState).state.captureBuffer = "" ∧
    (toggleMic sampleEnv Role.Scribe liveDoctorState).state.currentInput = "" :=
  ⟨by decide, by decide, by decide,
    (fragmentAccumulation_spec.1 baseState ["patient", "has", "fever"]
      (by decide) (by decide) (by decide)).1,
    (fragmentAccumulation_spec.1 baseState ["patient", "has", "fever"]
      (by decide) (by decide) (by decide)).2,
    by decide,
    (fragmentAccumulation_spec.2 sampleEnv Role.Scribe liveDoctorState (by decide)).1,
    (fragmentAccumulation_spec.2 sampleEnv Role.Scribe liveDoctorState (by decide)).2⟩

/-- C9 (counterexample): with an empty first fragment the claimed formula
fails — the code produces `"x"` for the fragment sequence `["", "x"]`
while `f1 ++ " " ++ f2` is `" x"`. -/
theorem fragmentAccumulation_counterexample :
    ¬ ((applyFragments baseState ["", "x"]).captureBuffer = specJoin ["", "x"]) := by
  decide

/-- C1 (amended): calling start-capture for role X while role Y is live
first awaits the full `stopLiveSession` for Y: in the resulting trace
Y's stream release and channel close all precede X's stream acquisition
and channel opening (no event before the acquisition acquires a
resource, so two transcription channels are never open concurrently),
and X's capture is then live. In unilingual (scribe) post-processing Y's
finalized utterance is also appended to the log before X's resources are
acquired; in bilingual mode, however, the `DialogueEntry` is only
appended when the un-awaited translation resolves, which may be after
X's capture has begun — see the counterexample. -/
theorem captureSwitch_spec (env : Env) (s : AppState) (rx ry : Role)
    (hy : s.isLive = some ry) (hxy : ry ≠ rx)
    (h1 : s.streamOpen = true) (h2 : s.sessionOpen = true)
    (hmic : env.getUserMediaOk = true) :
    ∃ tr1, (toggleMic env rx s).events
        = tr1 ++ [Event.streamAcquired rx, Event.channelOpened rx] ∧
      Event.streamReleased ∈ tr1 ∧ Event.sessionClosed ∈ tr1 ∧
      (∀ e ∈ tr1, e.isAcquire = false) ∧
      (toggleMic env rx s).state.isLive = some rx ∧
      (toggleMic env rx s).state.sessionOpen = true ∧
      (s.mode = ConsultationMode.UNILINGUAL → jsTrim s.captureBuffer ≠ "" →
        Event.appendScribe (jsTrim s.captureBuffer) ∈ tr1) := by
  have hne : ¬ (s.isLive = some rx) := by
    rw [hy]
    intro hc
    exact hxy (by injection hc)
  have hsome : s.isLive.isSome = true := by rw [hy]; rfl
  refine ⟨(stopLiveSession env s).events, ?_⟩
  simp only [toggleMic, if_neg hne, hsome, if_true, hmic]
  obtain ⟨tl, htl⟩ := stopLiveSession_events_open env s h1 h2
  refine ⟨trivial, ?_, ?_, stopLiveSession_no_acquire env s, trivial, trivial, ?_⟩
  · rw [htl]
    simp
  · rw [htl]
    simp
  · intro hmode hneb
    rw [stopLiveSession_scribe env s hmode hneb]
    simp [scribeFinalize_events]

theorem captureSwitch_spec_witness :
    liveDoctorState.isLive = some Role.Doctor ∧
    Role.Doctor ≠ Role.Patient ∧
    liveDoctorState.streamOpen = true ∧
    liveDoctorState.sessionOpen = true ∧
    sampleEnv.getUserMediaOk = true ∧
    (∃ tr1, (toggleMic sampleEnv Role.Patient liveDoctorState).events
        = tr1 ++ [Event.streamAcquired Role.Patient,
                  Event.channelOpened Role.Patient] ∧
      Event.streamReleased ∈ tr1 ∧ Event.sessionClosed ∈ tr1 ∧
      (∀ e ∈ tr1, e.isAcquire = false) ∧
      (toggleMic sampleEnv Role.Patient liveDoctorState).state.isLive
        = some Role.Patient ∧
      (toggleMic sampleEnv Role.Patient liveDoctorState).state.sessionOpen = true ∧
      (liveDoctorState.mode = ConsultationMode.UNILINGUAL →
        jsTrim liveDoctorState.captureBuffer ≠ "" →
        Event.appendScribe (jsTrim liveDoctorState.captureBuffer) ∈ tr1)) :=
  ⟨by decide, by decide, by decide, by decide, by decide,
    captureSwitch_spec sampleEnv liveDoctorState Role.Patient Role.Doctor
      (by decide) (by decide) (by decide) (by decide) (by decide)⟩

/-- C1 (counterexample): in bilingual mode, switching from the live Doctor
capture (buffer "hello") to the Patient role completes with the Patient
capture live and its channel opened, while NO transcript-log entry for
Doctor's finalized utterance exists in either log — the translation that
would append it is still pending. This refutes the claim that Y's
finalized utterance is appended to the transcript log before X's
resources are acquired. -/
theorem captureSwitch_counterexample :
    (toggleMic sampleEnv Role.Patient liveDoctorState).state.isLive
      = some Role.Patient ∧
    Event.channelOpened Role.Patient
      ∈ (toggleMic sampleEnv Role.Patient liveDoctorState).events ∧
    (toggleMic sampleEnv Role.Patient liveDoctorState).state.messages = [] ∧
    (toggleMic sampleEnv Role.Patient liveDoctorState).state.scribeBlocks = [] ∧
    (toggleMic sampleEnv Role.Patient liveDoctorState).pending
      = [{ role := Role.Doctor, text := "hello" }] := by
  decide

end AuraDoc
